import Mathlib

/-!
Verification of the DomiRank centrality solver
(`src/networkx/algorithms/centrality/domirank.py`).

The numeric model is exact rational arithmetic (`ℚ`): the source performs its
arithmetic in 32-bit floats, but every property checked here concerns control
flow (convergence flags, buffer indices, bracket bounds, result shapes) and the
signs and monotonicity of the iterates, which are robust to the idealization.
Fallible numpy operations (out-of-bounds buffer writes, division used to size
the history buffer) are modelled with `Except`.
-/

namespace DomiRank

abbrev QVec := List ℚ
abbrev QMat := List (List ℚ)

/-- Dense model of the sparse matrix–vector product `A @ x`. -/
def matVec (A : QMat) (x : QVec) : QVec :=
  A.map (fun row => (List.zipWith (fun a b => a * b) row x).sum)

/-- Scalar times vector, `c * v` (numpy broadcasting). -/
def smulVec (c : ℚ) (v : QVec) : QVec := v.map (fun a => c * a)

/-- Scalar times matrix, `sigma * G` (scipy sparse scalar multiplication). -/
def smulMat (c : ℚ) (A : QMat) : QMat := A.map (fun row => row.map (fun a => c * a))

/-- Elementwise vector addition, `Psi + tempVal`. -/
def vadd (a b : QVec) : QVec := List.zipWith (fun x y => x + y) a b

/-- Elementwise vector subtraction, `(pGAdj @ (1 - Psi)) - Psi`. -/
def vsub (a b : QVec) : QVec := List.zipWith (fun x y => x - y) a b

/-- Elementwise `1 - Psi` (numpy broadcasting of `1 - array`). -/
def onesMinus (v : QVec) : QVec := v.map (fun a => 1 - a)

/-- `np.abs(v).sum()`. -/
def absSum (v : QVec) : ℚ := (v.map (fun a => |a|)).sum

/-- `v.max()` for a numpy array; the source only applies it to nonempty arrays
(the graph has at least one node), so the empty case returns a junk 0. -/
def listMax : QVec → ℚ
  | [] => 0
  | h :: t => t.foldl max h

/-- `G.sum(axis=-1)`: the vector of row sums. -/
def rowSums (A : QMat) : QVec := A.map List.sum

/-- `G.sum(axis=-1).max()`: the largest row sum. -/
def maxRowSum (A : QMat) : ℚ := listMax (rowSums A)

/-- Python list/array read `l[i]`, including the negative-index wraparound
`l[-k] = l[len l - k]`.  The source reads `maxVals[j - 2]` at `j = 1`, which is
`maxVals[-1]`, the last slot of the buffer.  Out-of-range reads return a junk 0;
on the paths exercised here every read is in range. -/
def pyGet (l : QVec) (i : Int) : ℚ :=
  if i < 0 then l.getD (l.length - i.natAbs) 0 else l.getD i.toNat 0

/-- numpy array write `l[i] = v`: raises `IndexError` (here `none`) when the
index is out of bounds. -/
def pySet (l : QVec) (i : ℕ) (v : ℚ) : Option QVec :=
  if i < l.length then some (l.set i v) else none

/-- Runtime faults of the numpy layer that the source can raise. -/
inductive PyError where
  | indexError
  | zeroDivisionError
deriving DecidableEq

/-- The iteration loop shared verbatim by `domirank` (lines 185–202) and
`_domirank` (lines 292–305); the spec's Divergence-Aware Iterator.  Arguments
after the parameters: remaining fuel (`max_iter - i`), the step counter `i`,
`Psi`, the history buffer `maxVals`, and the sample counter `j`.  Returns the
final `Psi`, the final `j`, and the converged flag.  The source's local
`initialChange` is written and never read, so it is not carried. -/
def domirankLoop (pGAdj : QMat) (dt epsilon : ℚ) (check_step : ℕ) :
    ℕ → ℕ → QVec → QVec → ℕ → Except PyError (QVec × ℕ × Bool)
  | 0, _, Psi, _, j => .ok (Psi, j, true)
  | fuel + 1, i, Psi, maxVals, j =>
    let tempVal := smulVec dt (vsub (matVec pGAdj (onesMinus Psi)) Psi)
    let Psi' := vadd Psi tempVal
    if i % check_step = 0 then
      if absSum tempVal < epsilon * pGAdj.length * dt then .ok (Psi', j, true)
      else
        match pySet maxVals j (listMax tempVal) with
        | none => .error .indexError
        | some maxVals' =>
          if 0 < j ∧ pyGet maxVals' j > pyGet maxVals' ((j : Int) - 1) ∧
              pyGet maxVals' ((j : Int) - 1) > pyGet maxVals' ((j : Int) - 2) then
            .ok (Psi', j, false)
          else domirankLoop pGAdj dt epsilon check_step fuel (i + 1) Psi' maxVals' (j + 1)
    else domirankLoop pGAdj dt epsilon check_step fuel (i + 1) Psi' maxVals j

/-- One full run of the iteration loop on an already scaled matrix `pGAdj`:
initial `Psi = ones(N)/N`, history buffer `np.zeros(int(max_iter/check_step))`,
counters at zero.  `check_step = 0` models Python's `ZeroDivisionError` from
`int(max_iter / check_step)`. -/
def domirankIterateFull (pGAdj : QMat) (dt epsilon : ℚ) (max_iter check_step : ℕ) :
    Except PyError (QVec × ℕ × Bool) :=
  if check_step = 0 then .error .zeroDivisionError
  else
    let n := pGAdj.length
    let Psi := List.replicate n ((1 : ℚ) / n)
    let maxVals := List.replicate (max_iter / check_step) (0 : ℚ)
    domirankLoop pGAdj dt epsilon check_step max_iter 0 Psi maxVals 0

/-- The iterator's source-visible output: final state vector and converged flag. -/
def domirankIterate (pGAdj : QMat) (dt epsilon : ℚ) (max_iter check_step : ℕ) :
    Except PyError (QVec × Bool) :=
  (domirankIterateFull pGAdj dt epsilon max_iter check_step).map (fun r => (r.1, r.2.2))

/-- `_domirank` (lines 278–305): scales the matrix by `sigma`, runs the loop,
and returns only the converged flag. -/
def hidden_domirank (G : QMat) (sigma dt epsilon : ℚ) (max_iter check_step : ℕ) :
    Except PyError Bool :=
  (domirankIterateFull (smulMat sigma G) dt epsilon max_iter check_step).map (fun r => r.2.2)

/-- The bisection loop of `_find_smallest_eigenvalue` (lines 262–273), fuelled
by `maxDepth`. -/
def findEigLoop (G : QMat) (dt epsilon : ℚ) (max_iter check_step : ℕ) :
    ℕ → ℚ → ℚ → ℚ → Except PyError ℚ
  | 0, minVal, maxVal, _ => .ok (-1 / ((maxVal + minVal) / 2))
  | fuel + 1, minVal, maxVal, x =>
    if maxVal - minVal < epsilon then .ok (-1 / ((maxVal + minVal) / 2))
    else
      match hidden_domirank G x dt epsilon max_iter check_step with
      | .error e => .error e
      | .ok true => findEigLoop G dt epsilon max_iter check_step fuel x maxVal ((x + maxVal) / 2)
      | .ok false =>
        findEigLoop G dt epsilon max_iter check_step fuel
          minVal ((x + maxVal) / 2) ((minVal + (x + maxVal) / 2) / 2)

/-- `_find_smallest_eigenvalue` (lines 241–275).  The initial probe is
`x = (minVal + maxVal) / G.sum(axis=-1).max()`; when the largest row sum is 0
the source has no guard: numpy produces a non-finite `inf` and continues
without raising (in `ℚ` the division-by-zero convention yields 0 and the run
likewise continues without raising — under both semantics no error is
surfaced).  The source's local `minValStored` is written and never read, so it
is not carried. -/
def find_smallest_eigenvalue (G : QMat) (minVal maxVal : ℚ) (maxDepth : ℕ)
    (dt epsilon : ℚ) (max_iter check_step : ℕ) : Except PyError ℚ :=
  findEigLoop G dt epsilon max_iter check_step maxDepth minVal maxVal
    ((minVal + maxVal) / maxRowSum G)

/-- Instrumented twin of the bisection loop: the list of `(minVal, maxVal)`
bracket states at each loop entry, including the terminal state.  The bracket
updates are exactly those of `findEigLoop`. -/
def findEigStates (G : QMat) (dt epsilon : ℚ) (max_iter check_step : ℕ) :
    ℕ → ℚ → ℚ → ℚ → List (ℚ × ℚ)
  | 0, minVal, maxVal, _ => [(minVal, maxVal)]
  | fuel + 1, minVal, maxVal, x =>
    (minVal, maxVal) ::
      (if maxVal - minVal < epsilon then []
       else
        match hidden_domirank G x dt epsilon max_iter check_step with
        | .error _ => []
        | .ok true => findEigStates G dt epsilon max_iter check_step fuel x maxVal ((x + maxVal) / 2)
        | .ok false =>
          findEigStates G dt epsilon max_iter check_step fuel
            minVal ((x + maxVal) / 2) ((minVal + (x + maxVal) / 2) / 2))

/-- The bracket trace of a Spectral Bound Finder run as invoked by `domirank`:
default bracket `[0, 1]`, initial probe `(0 + 1) / maxRowSum G`. -/
def findSmallestEigenvalueTrace (G : QMat) (dt epsilon : ℚ)
    (max_iter check_step maxDepth : ℕ) : List (ℚ × ℚ) :=
  findEigStates G dt epsilon max_iter check_step maxDepth 0 1 ((0 + 1) / maxRowSum G)

/-- The exact Python runtime type of the argument, as tested by
`type(G) == nx.classes.graph.Graph or type(G) == nx.classes.digraph.DiGraph`.
A subclass instance has its own runtime type, distinct from `Graph`/`DiGraph`,
so `type(G) ==` is false for it. -/
inductive PyType where
  | Graph
  | DiGraph
  | MultiGraph
  | GraphSubclass
  | DiGraphSubclass
  | Other
deriving DecidableEq

/-- The input object: its exact runtime type, its node identifiers in the
graph's native iteration order (duplicate-free in networkx), and the adjacency
matrix produced by `nx.to_scipy_sparse_array(G)` (rows/columns aligned with
the node order). -/
structure GraphObj where
  ty : PyType
  nodes : List ℕ
  adj : QMat

/-- The exceptions `domirank` can raise, each a distinct reported condition. -/
inductive NxError where
  | pointlessConcept
  | networkXError
  | unfeasibleSigmaIter
  | unfeasibleSupercharge
  | unfeasibleSigmaAnalytical
  | indexError
  | zeroDivisionError
deriving DecidableEq

def liftPyError : PyError → NxError
  | .indexError => .indexError
  | .zeroDivisionError => .zeroDivisionError

/-- The two `warnings.warn` advisories of the analytical branch. -/
inductive NxWarning where
  | largeSystem
  | supercharge
deriving DecidableEq

/-- Laplace expansion along the first row, fuelled by the row count. -/
def detAux : ℕ → QMat → ℚ
  | 0, _ => 1
  | _ + 1, [] => 1
  | n + 1, r :: M =>
    ((List.range r.length).map
      (fun k => (-1 : ℚ) ^ k * r.getD k 0 * detAux n (M.map (fun row => row.eraseIdx k)))).sum

def det (M : QMat) : ℚ := detAux M.length M

def replaceCol (M : QMat) (k : ℕ) (b : QVec) : QMat :=
  List.zipWith (fun row bi => row.set k bi) M b

/-- Model of the external primitive `scipy.sparse.linalg.spsolve` under the
spec's contract of a general sparse linear solve `A·x = b`: an exact solver by
Cramer's rule, producing one entry per row of `M` (on a singular system the
entries are junk, as scipy's are). -/
def spsolve (M : QMat) (b : QVec) : QVec :=
  (List.range M.length).map (fun k => det (replaceCol M k b) / det M)

/-- `scipy.sparse.identity(n)`. -/
def identityMat (n : ℕ) : QMat :=
  (List.range n).map (fun i => (List.range n).map (fun k => if k = i then (1 : ℚ) else 0))

def matAdd (A B : QMat) : QMat := List.zipWith vadd A B

/-- `domirank` (lines 11–237): validation, normalization by the spectral
bound, then the iterative loop or the analytical sparse solve.  The first
component collects the `warnings.warn` advisories emitted before the result;
the second is the returned triple `(dict(zip(G, Psi)), sigma, converged)`
or the raised exception. -/
def domirank (G : GraphObj) (analytical : Bool) (sigma dt epsilon : ℚ)
    (max_iter check_step : ℕ) :
    List NxWarning × Except NxError (List (ℕ × ℚ) × ℚ × Bool) :=
  if G.ty = PyType.Graph ∨ G.ty = PyType.DiGraph then
    if G.nodes.length = 0 then ([], .error .pointlessConcept)
    else
      let GAdj := G.adj
      if analytical = false then
        if sigma < 0 then ([], .error .unfeasibleSigmaIter)
        else if sigma > 1 then ([], .error .unfeasibleSupercharge)
        else
          match find_smallest_eigenvalue GAdj 0 1 (max_iter / 5) dt epsilon max_iter check_step with
          | .error e => ([], .error (liftPyError e))
          | .ok lam =>
            let sigma2 := |sigma / lam|
            let pGAdj := smulMat sigma2 GAdj
            match domirankIterate pGAdj dt epsilon max_iter check_step with
            | .error e => ([], .error (liftPyError e))
            | .ok (Psi, conv) => ([], .ok (List.zip G.nodes Psi, sigma2, conv))
      else
        let warns := (if GAdj.length > 5000 then [NxWarning.largeSystem] else [])
          ++ (if sigma > 1 then [NxWarning.supercharge] else [])
        if sigma < 0 then (warns, .error .unfeasibleSigmaAnalytical)
        else
          match find_smallest_eigenvalue GAdj 0 1 (max_iter / 5) dt epsilon max_iter check_step with
          | .error e => (warns, .error (liftPyError e))
          | .ok lam =>
            let sigma2 := |sigma / lam|
            let Psi := spsolve (matAdd (smulMat sigma2 GAdj) (identityMat GAdj.length))
              (smulVec sigma2 (rowSums GAdj))
            (warns, .ok (List.zip G.nodes Psi, sigma2, true))
  else ([], .error .networkXError)

/-- The two-node path graph `0 — 1`, unit weights. -/
def pathTwo : QMat := [[0, 1], [1, 0]]

/-- The two-node path graph with edge weight `1/2`. -/
def halfPathTwo : QMat := [[0, (1 : ℚ) / 2], [(1 : ℚ) / 2, 0]]

/-- A single node with no edges: the 1×1 zero adjacency matrix. -/
def singleNode : QMat := [[0]]

def pathTwoGraph : GraphObj := ⟨PyType.Graph, [0, 1], pathTwo⟩

def singleNodeGraph : GraphObj := ⟨PyType.Graph, [7], singleNode⟩

/-- An instance of a subclass of `Graph`, with zero nodes. -/
def subclassEmptyGraph : GraphObj := ⟨PyType.GraphSubclass, [], []⟩

/-! ### List-level helper lemmas -/

theorem zipWith_replicate_same (f : ℚ → ℚ → ℚ) (n : ℕ) (a b : ℚ) :
    List.zipWith f (List.replicate n a) (List.replicate n b) = List.replicate n (f a b) := by
  induction n with
  | zero => rfl
  | succ k ih => simp [List.replicate_succ, ih]

theorem zip_replicate_zero_sum (n : ℕ) (v : QVec) :
    (List.zipWith (fun a b => a * b) (List.replicate n 0) v).sum = 0 := by
  induction n generalizing v with
  | zero => rfl
  | succ k ih =>
    cases v with
    | nil => rfl
    | cons w ws => simp [List.replicate_succ, ih ws]

theorem zip_zero_sum (r v : QVec) :
    (List.zipWith (fun a b => a * b) (r.map (fun a => 0 * a)) v).sum = 0 := by
  have hr : r.map (fun a => (0 : ℚ) * a) = List.replicate r.length 0 := by
    simp
  rw [hr]
  exact zip_replicate_zero_sum r.length v

theorem matVec_zero_smul (A : QMat) (v : QVec) :
    matVec (smulMat 0 A) v = List.replicate A.length 0 := by
  induction A with
  | nil => rfl
  | cons r M ih =>
    simp only [smulMat, List.map_cons, matVec, List.length_cons, List.replicate_succ,
      List.cons.injEq] at *
    exact ⟨zip_zero_sum r v, ih⟩

theorem absSum_replicate (n : ℕ) (q : ℚ) : absSum (List.replicate n q) = n * |q| := by
  simp [absSum, List.map_replicate, List.sum_replicate, nsmul_eq_mul]

theorem listMax_replicate (k : ℕ) (q : ℚ) : listMax (List.replicate (k + 1) q) = q := by
  induction k with
  | zero => rfl
  | succ m ih =>
    simp only [List.replicate_succ, listMax, List.foldl_cons, max_self] at *
    exact ih

theorem getD_set_self (l : QVec) (a : ℕ) (x : ℚ) (h : a < l.length) :
    (l.set a x).getD a 0 = x := by
  induction l generalizing a with
  | nil => simp at h
  | cons hd tl ih =>
    cases a with
    | zero => rfl
    | succ m => simpa using ih m (by simpa using h)

theorem getD_set_ne (l : QVec) (a b : ℕ) (x : ℚ) (h : a ≠ b) :
    (l.set a x).getD b 0 = l.getD b 0 := by
  induction l generalizing a b with
  | nil => rfl
  | cons hd tl ih =>
    cases a with
    | zero => cases b with
      | zero => exact absurd rfl h
      | succ m => rfl
    | succ m => cases b with
      | zero => rfl
      | succ k => simpa using ih m k (by omega)

theorem getD_replicate (n i : ℕ) (a : ℚ) (h : i < n) :
    (List.replicate n a).getD i 0 = a := by
  induction n generalizing i with
  | zero => omega
  | succ m ih =>
    cases i with
    | zero => rfl
    | succ k => simpa [List.replicate_succ] using ih k (by omega)

theorem pySet_lt (l : QVec) (j : ℕ) (v : ℚ) (h : j < l.length) :
    pySet l j v = some (l.set j v) := by
  simp [pySet, h]

theorem length_smulMat (c : ℚ) (A : QMat) : (smulMat c A).length = A.length := by
  simp [smulMat]

theorem length_matVec (A : QMat) (x : QVec) : (matVec A x).length = A.length := by
  simp [matVec]

theorem step_length (pG : QMat) (dt : ℚ) (Psi : QVec) (h : Psi.length = pG.length) :
    (vadd Psi (smulVec dt (vsub (matVec pG (onesMinus Psi)) Psi))).length = pG.length := by
  simp [vadd, smulVec, vsub, length_matVec, h]

/-! ### C1: the analytical branch's converged value -/

/-- C1 (corrected), counterexample: a concrete analytical-mode call completes
and returns the boolean `true` as its converged value, not a distinct
"not applicable" sentinel — the claim says the boolean `true` is never
returned. -/
theorem analytical_counterexample :
    ((domirank pathTwoGraph true (1/2) (1/10) (1/100000) 10 5).2).map (fun r => r.2.2)
      = Except.ok true := by
  with_unfolding_all rfl

/-- C1 (amended): every analytical-mode call that completes without raising
returns `converged = true` (the boolean); there is no separate sentinel and
`false` is never returned. -/
theorem analytical_converged_always_true (G : GraphObj) (sigma dt epsilon : ℚ)
    (max_iter check_step : ℕ) (b : Bool)
    (h : ((domirank G true sigma dt epsilon max_iter check_step).2).map (fun r => r.2.2)
        = Except.ok b) :
    b = true := by
  by_cases hty : G.ty = PyType.Graph ∨ G.ty = PyType.DiGraph
  · by_cases hlen : G.nodes.length = 0
    · simp [domirank, hty, hlen, Except.map] at h
    · by_cases hsig : sigma < 0
      · simp [domirank, hty, hlen, hsig, Except.map] at h
      · cases hfind : find_smallest_eigenvalue G.adj 0 1 (max_iter / 5) dt epsilon
            max_iter check_step with
        | error e => simp [domirank, hty, hlen, hsig, hfind, Except.map] at h
        | ok lam =>
          simp [domirank, hty, hlen, hsig, hfind, Except.map] at h
          exact h
  · simp [domirank, hty, Except.map] at h

/-- C1 witness: the amended theorem applied at a concrete analytical call. -/
theorem analytical_converged_always_true_witness :
    (((domirank pathTwoGraph true (3/4) (1/10) (1/100000) 10 5).2).map (fun r => r.2.2)
      = Except.ok true) ∧ true = true :=
  ⟨by with_unfolding_all rfl,
   analytical_converged_always_true pathTwoGraph (3/4) (1/10) (1/100000) 10 5 true
     (by with_unfolding_all rfl)⟩

/-! ### C10: the exact-runtime-type gate -/

/-- C10 (confirmed): inputs whose exact runtime type is not `Graph` or
`DiGraph` — subclass instances included — are rejected with `NetworkXError`
before anything else, and the empty-graph `NetworkXPointlessConcept`
rejection is only ever reached for the two exact types. -/
theorem exact_type_gate (G : GraphObj) (analytical : Bool) (sigma dt epsilon : ℚ)
    (max_iter check_step : ℕ) :
    (¬ (G.ty = PyType.Graph ∨ G.ty = PyType.DiGraph) →
      domirank G analytical sigma dt epsilon max_iter check_step
        = ([], .error .networkXError))
    ∧ ((domirank G analytical sigma dt epsilon max_iter check_step).2
        = .error .pointlessConcept →
      (G.ty = PyType.Graph ∨ G.ty = PyType.DiGraph) ∧ G.nodes.length = 0) := by
  constructor
  · intro hty
    simp [domirank, hty]
  · intro h
    by_cases hty : G.ty = PyType.Graph ∨ G.ty = PyType.DiGraph
    · refine ⟨hty, ?_⟩
      by_cases hlen : G.nodes.length = 0
      · exact hlen
      · exfalso
        cases analytical with
        | false =>
          by_cases hs0 : sigma < 0
          · simp [domirank, hty, hlen, hs0] at h
          · by_cases hs1 : sigma > 1
            · simp [domirank, hty, hlen, hs0, hs1] at h
            · cases hfind : find_smallest_eigenvalue G.adj 0 1 (max_iter / 5) dt epsilon
                  max_iter check_step with
              | error e =>
                simp [domirank, hty, hlen, hs0, hs1, hfind] at h
                cases e <;> simp_all [liftPyError]
              | ok lam =>
                cases hit : domirankIterate (smulMat (|sigma / lam|) G.adj) dt epsilon
                    max_iter check_step with
                | error e =>
                  simp [domirank, hty, hlen, hs0, hs1, hfind, hit] at h
                  cases e <;> simp_all [liftPyError]
                | ok pr =>
                  obtain ⟨Psi, conv⟩ := pr
                  simp [domirank, hty, hlen, hs0, hs1, hfind, hit] at h
        | true =>
          by_cases hs0 : sigma < 0
          · simp [domirank, hty, hlen, hs0] at h
          · cases hfind : find_smallest_eigenvalue G.adj 0 1 (max_iter / 5) dt epsilon
                max_iter check_step with
            | error e =>
              simp [domirank, hty, hlen, hs0, hfind] at h
              cases e <;> simp_all [liftPyError]
            | ok lam => simp [domirank, hty, hlen, hs0, hfind] at h
    · simp [domirank, hty] at h

/-- C10 witness: an instance of a `Graph` subclass with zero nodes is
rejected with `NetworkXError` (the type gate), not the empty-graph error. -/
theorem exact_type_gate_witness :
    (¬ (subclassEmptyGraph.ty = PyType.Graph ∨ subclassEmptyGraph.ty = PyType.DiGraph)) ∧
    domirank subclassEmptyGraph false (1/2) (1/10) (1/100000) 10 5
      = ([], .error .networkXError) :=
  ⟨by decide,
   (exact_type_gate subclassEmptyGraph false (1/2) (1/10) (1/100000) 10 5).1 (by decide)⟩

/-! ### C8: validation of the competition parameter -/

/-- C8 (confirmed): `sigma < 0` is rejected in both modes (each with its own
`NetworkXUnfeasible` message); `sigma > 1` in iterative mode is rejected;
`sigma > 1` in analytical mode is permitted — the supercharge advisory warning
is emitted and the only failures that can still occur are runtime faults of the
numeric pipeline, never a validation rejection. -/
theorem alpha_validation (G : GraphObj) (analytical : Bool) (sigma dt epsilon : ℚ)
    (max_iter check_step : ℕ)
    (hty : G.ty = PyType.Graph ∨ G.ty = PyType.DiGraph) (hne : ¬ G.nodes.length = 0) :
    (sigma < 0 → analytical = false →
      (domirank G analytical sigma dt epsilon max_iter check_step).2
        = .error .unfeasibleSigmaIter)
    ∧ (sigma < 0 → analytical = true →
      (domirank G analytical sigma dt epsilon max_iter check_step).2
        = .error .unfeasibleSigmaAnalytical)
    ∧ (1 < sigma → analytical = false →
      (domirank G analytical sigma dt epsilon max_iter check_step).2
        = .error .unfeasibleSupercharge)
    ∧ (1 < sigma → analytical = true →
      NxWarning.supercharge ∈ (domirank G analytical sigma dt epsilon max_iter check_step).1 ∧
      ∀ e, (domirank G analytical sigma dt epsilon max_iter check_step).2 = .error e →
        e = NxError.indexError ∨ e = NxError.zeroDivisionError) := by
  refine ⟨?_, ?_, ?_, ?_⟩
  · intro hs ha
    subst ha
    simp [domirank, hty, hne, hs]
  · intro hs ha
    subst ha
    simp [domirank, hty, hne, hs]
  · intro hs ha
    subst ha
    have hs0 : ¬ sigma < 0 := by linarith
    simp [domirank, hty, hne, hs0, hs]
  · intro hs ha
    subst ha
    have hs0 : ¬ sigma < 0 := by linarith
    constructor
    · cases hfind : find_smallest_eigenvalue G.adj 0 1 (max_iter / 5) dt epsilon
          max_iter check_step with
      | error e2 => simp [domirank, hty, hne, hs0, hs, hfind]
      | ok lam => simp [domirank, hty, hne, hs0, hs, hfind]
    · intro e h
      cases hfind : find_smallest_eigenvalue G.adj 0 1 (max_iter / 5) dt epsilon
          max_iter check_step with
      | error e2 =>
        simp [domirank, hty, hne, hs0, hs, hfind] at h
        cases e2 <;> simp_all [liftPyError]
      | ok lam => simp [domirank, hty, hne, hs0, hs, hfind] at h

/-- C8 witness: a concrete analytical call with `sigma = 3/2` gets the
supercharge advisory while the computation proceeds to a result. -/
theorem alpha_validation_witness :
    NxWarning.supercharge ∈ (domirank pathTwoGraph true (3/2) (1/10) (1/100000) 10 5).1 :=
  ((alpha_validation pathTwoGraph true (3/2) (1/10) (1/100000) 10 5
    (Or.inl rfl) (by decide)).2.2.2 (by norm_num) rfl).1

/-! ### C4: absence of dt/epsilon/patience validation -/

/-- C4 (corrected), counterexample: `patience = 3` with `max_iter = 100` and
`dt = 3/2` are both accepted — each call runs the full numeric pipeline and
returns a result instead of being rejected before any matrix is scaled. -/
theorem no_validation_counterexample :
    (((domirank pathTwoGraph false (19/20) (1/10) (1/100000) 100 3).2).map (fun _ => ())
      = Except.ok ())
    ∧ (((domirank pathTwoGraph false (19/20) (3/2) (1/100000) 100 10).2).map (fun _ => ())
      = Except.ok ()) := by
  constructor
  · with_unfolding_all rfl
  · set_option maxRecDepth 8000 in with_unfolding_all rfl

/-- C4 (amended): the entry point performs no validation of `dt`, `epsilon`,
`patience` or `max_iter` at all — once the graph checks and the sigma range
checks pass, the only failures that can still be reported are runtime faults
of the numeric pipeline (an out-of-bounds buffer write or a zero
`check_step`), never a fail-fast rejection. -/
theorem no_parameter_validation (G : GraphObj) (analytical : Bool) (sigma dt epsilon : ℚ)
    (max_iter check_step : ℕ) (e : NxError)
    (hty : G.ty = PyType.Graph ∨ G.ty = PyType.DiGraph) (hne : ¬ G.nodes.length = 0)
    (hs0 : 0 ≤ sigma) (hs1 : analytical = true ∨ sigma ≤ 1)
    (h : (domirank G analytical sigma dt epsilon max_iter check_step).2 = .error e) :
    e = NxError.indexError ∨ e = NxError.zeroDivisionError := by
  have hs0' : ¬ sigma < 0 := by linarith
  cases analytical with
  | false =>
    have hs1' : ¬ sigma > 1 := by
      rcases hs1 with h1 | h1
      · exact absurd h1 (by simp)
      · linarith
    cases hfind : find_smallest_eigenvalue G.adj 0 1 (max_iter / 5) dt epsilon
        max_iter check_step with
    | error e2 =>
      simp [domirank, hty, hne, hs0', hs1', hfind] at h
      cases e2 <;> simp_all [liftPyError]
    | ok lam =>
      cases hit : domirankIterate (smulMat (|sigma / lam|) G.adj) dt epsilon
          max_iter check_step with
      | error e2 =>
        simp [domirank, hty, hne, hs0', hs1', hfind, hit] at h
        cases e2 <;> simp_all [liftPyError]
      | ok pr =>
        obtain ⟨Psi, conv⟩ := pr
        simp [domirank, hty, hne, hs0', hs1', hfind, hit] at h
  | true =>
    cases hfind : find_smallest_eigenvalue G.adj 0 1 (max_iter / 5) dt epsilon
        max_iter check_step with
    | error e2 =>
      simp [domirank, hty, hne, hs0', hfind] at h
      cases e2 <;> simp_all [liftPyError]
    | ok lam => simp [domirank, hty, hne, hs0', hfind] at h

/-- C4 witness: the amended theorem at a concrete call whose numeric pipeline
faults with an out-of-bounds buffer write (`max_iter = 11`, `check_step = 10`). -/
theorem no_parameter_validation_witness :
    ((domirank singleNodeGraph false (1/2) (1/10) (1/100000) 11 10).2
      = .error NxError.indexError) ∧
    (NxError.indexError = NxError.indexError ∨
      NxError.indexError = NxError.zeroDivisionError) :=
  ⟨by with_unfolding_all rfl,
   no_parameter_validation singleNodeGraph false (1/2) (1/10) (1/100000) 11 10
     NxError.indexError (Or.inl rfl) (by decide) (by norm_num) (Or.inr (by norm_num))
     (by with_unfolding_all rfl)⟩

/-! ### C6: the unguarded zero-row-sum probe -/

/-- C6 (code bug): for a graph whose largest row sum is 0 (a single node, no
edges) the Spectral Bound Finder raises no invalid-input error at its initial
probe — the division by zero is unguarded and the run returns an ordinary
value. -/
theorem zero_rowsum_unguarded :
    maxRowSum singleNode = 0 ∧
    find_smallest_eigenvalue singleNode 0 1 3 (1/10) (1/2) 20 10 = Except.ok (-8/7) := by
  constructor
  · with_unfolding_all rfl
  · with_unfolding_all rfl

/-! ### C2: the iterator at `sigma = 0` -/

/-- C2 (corrected), counterexample: with `sigma = 0` (zero scaled matrix), a
single node, `dt = 1/10`, `epsilon = 1/100000`, `max_iter = 1000` and
`patience = 10`, the Iterator reports `converged = false` — the decaying
(negative, strictly increasing) update maxima trigger the divergence
heuristic, contradicting the claim that `sigma = 0` always converges. -/
theorem sigma_zero_counterexample :
    hidden_domirank singleNode 0 (1/10) (1/100000) 1000 10 = Except.ok false := by
  with_unfolding_all rfl

/-! ### C3: divergence with fewer than three recorded samples -/

/-- C3 (corrected), counterexample: on the two-node path with `sigma = 40` the
Iterator stops with `converged = false` at sample counter `j = 1`, i.e. with
only two samples recorded — the third compared value is the zero-initialized
final buffer slot read through Python's negative-index wraparound
(`maxVals[-1]`), contradicting the claim that at least 3 recorded samples are
required. -/
theorem diverged_two_samples_counterexample :
    (domirankIterateFull (smulMat 40 pathTwo) (1/10) (1/100000) 1000 10).map
      (fun r => (r.2.1, r.2.2)) = Except.ok (1, false) := by
  with_unfolding_all rfl

/-- Helper for C3: the loop can stop with `converged = false` only from the
divergence branch, whose guard requires `0 < j`; hence at least two samples
(slots `0..j`) have been recorded at any diverged stop. -/
theorem domirankLoop_false_samples (pG : QMat) (dt epsilon : ℚ) (c : ℕ) :
    ∀ fuel i Psi mv j P jf,
      domirankLoop pG dt epsilon c fuel i Psi mv j = .ok (P, jf, false) → 1 ≤ jf := by
  intro fuel
  induction fuel with
  | zero => intro i Psi mv j P jf h; simp [domirankLoop] at h
  | succ n ih =>
    intro i Psi mv j P jf h
    simp only [domirankLoop] at h
    split at h
    · split at h
      · simp at h
      · split at h
        · simp at h
        · split at h
          · next hguard _ =>
              simp only [Except.ok.injEq, Prod.mk.injEq] at h
              omega
          · exact ih _ _ _ _ _ _ h
    · exact ih _ _ _ _ _ _ h

/-- C3 (amended): a diverged stop (`converged = false`) happens only at a
sampling step whose guard `0 < j` holds, so at least two samples have been
recorded; with only the comparison against the zero-initialized last slot in
place of a third sample, two strictly increasing positive samples suffice. -/
theorem diverged_needs_recorded_samples (pG : QMat) (dt epsilon : ℚ)
    (max_iter check_step : ℕ) (jf : ℕ)
    (h : (domirankIterateFull pG dt epsilon max_iter check_step).map
        (fun r => (r.2.1, r.2.2)) = Except.ok (jf, false)) :
    1 ≤ jf := by
  simp only [domirankIterateFull] at h
  split at h
  · simp [Except.map] at h
  · cases hloop : domirankLoop pG dt epsilon check_step max_iter 0
        (List.replicate pG.length ((1 : ℚ) / pG.length))
        (List.replicate (max_iter / check_step) (0 : ℚ)) 0 with
    | error e => rw [hloop] at h; simp [Except.map] at h
    | ok r =>
      rw [hloop] at h
      obtain ⟨P, j', cv⟩ := r
      simp [Except.map] at h
      obtain ⟨hj, hcv⟩ := h
      subst hj hcv
      exact domirankLoop_false_samples pG dt epsilon check_step _ _ _ _ _ _ _ hloop

/-- C3 witness: the amended theorem at the concrete diverged run that recorded
two samples. -/
theorem diverged_needs_recorded_samples_witness :
    ((domirankIterateFull (smulMat 40 pathTwo) (1/10) (1/100000) 1000 10).map
      (fun r => (r.2.1, r.2.2)) = Except.ok (1, false)) ∧ 1 ≤ 1 :=
  ⟨by with_unfolding_all rfl,
   diverged_needs_recorded_samples (smulMat 40 pathTwo) (1/10) (1/100000) 1000 10 1
     (by with_unfolding_all rfl)⟩

/-! ### C7: history-buffer write bounds -/

/-- C7 (corrected), counterexample: with `max_iter = 11` and
`patience = check_step = 10` (which satisfies `5 ≤ patience ≤ max_iter`), the
buffer has capacity `int(11/10) = 1` but the sampling step at `i = 10` writes
index 1 — an out-of-bounds write (`IndexError`), contradicting the claim that
every buffer write is in bounds. -/
theorem buffer_write_oob_counterexample :
    hidden_domirank singleNode 0 (1/10) (1/100000) 11 10 = .error .indexError := by
  with_unfolding_all rfl

/-- Helper for C7: under the invariant `c * j ≤ i + (c - 1)`, with a buffer of
capacity `cap` and at most `c * cap` total steps, every write index stays
below `cap`, so the loop never raises `IndexError`. -/
theorem domirankLoop_writes_in_bounds (pG : QMat) (dt epsilon : ℚ) (c cap : ℕ)
    (hc : 0 < c) :
    ∀ fuel i Psi mv j, mv.length = cap → i + fuel ≤ c * cap → c * j ≤ i + (c - 1) →
      domirankLoop pG dt epsilon c fuel i Psi mv j ≠ .error .indexError := by
  intro fuel
  induction fuel with
  | zero => intro i Psi mv j _ _ _ h; simp [domirankLoop] at h
  | succ n ih =>
    intro i Psi mv j hmv hfuel hj h
    simp only [domirankLoop] at h
    split at h
    · next hchk =>
      obtain ⟨a, ha⟩ := Nat.dvd_of_mod_eq_zero hchk
      have hacap : a < cap := by
        have hi : i < c * cap := by omega
        rw [ha] at hi
        exact Nat.lt_of_mul_lt_mul_left hi
      have hja : j ≤ a := by
        have h1 : c * j < c * (a + 1) := by
          have : c * (a + 1) = c * a + c := by ring
          omega
        have := Nat.lt_of_mul_lt_mul_left h1
        omega
      have hjcap : j < mv.length := by omega
      split at h
      · simp at h
      · split at h
        · next hset =>
          rw [pySet_lt _ _ _ hjcap] at hset
          simp at hset
        · next mv2 hset =>
          rw [pySet_lt _ _ _ hjcap] at hset
          split at h
          · simp at h
          · refine ih (i + 1) _ _ (j + 1) ?_ (by omega) ?_ h
            · obtain ⟨rfl⟩ := hset
              simp [hmv]
            · have h2 : c * (j + 1) ≤ c * (a + 1) := Nat.mul_le_mul_left c (by omega)
              have h3 : c * (a + 1) = c * a + c := by ring
              omega
    · exact ih (i + 1) _ _ j hmv (by omega) (by omega) h

/-- C7 (amended): when `patience` divides `max_iter` (as with the defaults
1000 and 10), the write index of the history buffer never exceeds the
preallocated capacity `max_iter / patience`, so the run never raises
`IndexError`; the original claim fails exactly when `patience` does not divide
`max_iter`. -/
theorem buffer_writes_in_bounds_when_divides (pG : QMat) (dt epsilon : ℚ)
    (max_iter check_step : ℕ) (hc : 0 < check_step) (hdvd : check_step ∣ max_iter) :
    domirankIterateFull pG dt epsilon max_iter check_step ≠ .error .indexError := by
  obtain ⟨cap, rfl⟩ := hdvd
  intro h
  simp only [domirankIterateFull] at h
  split at h
  · simp at h
  · rw [Nat.mul_div_cancel_left cap hc] at h
    exact domirankLoop_writes_in_bounds pG dt epsilon check_step cap hc
      (check_step * cap) 0 _ _ 0 (by simp) (by omega) (by omega) h

/-- C7 witness: the amended theorem at a concrete divisible configuration. -/
theorem buffer_writes_in_bounds_witness :
    domirankIterateFull pathTwo (1/10) (1/100000) 20 10 ≠ .error .indexError :=
  buffer_writes_in_bounds_when_divides pathTwo (1/10) (1/100000) 20 10
    (by norm_num) (by norm_num)

/-! ### C5: the bisection bracket -/

/-- C5 (corrected), counterexample: on the two-node path with edge weight
`1/2` the initial probe is `(0+1)/(1/2) = 2 > 1`, the probe converges, and the
bracket becomes `(low, high) = (2, 1)` with `low > high` — the invariant
`low ≤ high` fails, and the width jumps from 1 to -1. -/
theorem bracket_invariant_counterexample :
    findSmallestEigenvalueTrace halfPathTwo (1/10) (1/100000) 10 5 2 = [(0, 1), (2, 1)]
    ∧ ¬ ((2 : ℚ) ≤ 1) := by
  constructor
  · with_unfolding_all rfl
  · norm_num

/-- Helper for C5: from any bracket state with the probe inside the bracket,
every later bracket state keeps `low ≤ high`, the width never increases
between consecutive states, and at most `fuel` further iterations happen. -/
theorem findEigStates_invariant (G : QMat) (dt epsilon : ℚ) (max_iter check_step : ℕ) :
    ∀ fuel mn mx x, mn ≤ x → x ≤ mx →
      ∃ t, findEigStates G dt epsilon max_iter check_step fuel mn mx x = (mn, mx) :: t
        ∧ (∀ p ∈ (mn, mx) :: t, p.1 ≤ p.2)
        ∧ List.Chain' (fun a b : ℚ × ℚ => b.2 - b.1 ≤ a.2 - a.1) ((mn, mx) :: t)
        ∧ ((mn, mx) :: t).length ≤ fuel + 1 := by
  intro fuel
  induction fuel with
  | zero =>
    intro mn mx x h1 h2
    refine ⟨[], rfl, ?_, by simp, by simp⟩
    simp only [List.mem_singleton, forall_eq]
    linarith
  | succ n ih =>
    intro mn mx x h1 h2
    simp only [findEigStates]
    split
    · refine ⟨[], rfl, ?_, by simp, by simp⟩
      simp only [List.mem_singleton, forall_eq]
      linarith
    · cases hdom : hidden_domirank G x dt epsilon max_iter check_step with
      | error e =>
        refine ⟨[], rfl, ?_, by simp, by simp⟩
        simp only [List.mem_singleton, forall_eq]
        linarith
      | ok b =>
        cases b with
        | true =>
          obtain ⟨t', ht', hall', hchain', hlen'⟩ :=
            ih x mx ((x + mx) / 2) (by linarith) (by linarith)
          refine ⟨(x, mx) :: t', by rw [ht'], ?_, ?_, ?_⟩
          · intro p hp
            rcases List.mem_cons.1 hp with rfl | hp'
            · simpa using by linarith
            · exact hall' p hp'
          · exact List.chain'_cons.2 ⟨by simp; linarith, hchain'⟩
          · simpa using by simpa using hlen'
        | false =>
          obtain ⟨t', ht', hall', hchain', hlen'⟩ :=
            ih mn ((x + mx) / 2) ((mn + (x + mx) / 2) / 2) (by linarith) (by linarith)
          refine ⟨(mn, (x + mx) / 2) :: t', by rw [ht'], ?_, ?_, ?_⟩
          · intro p hp
            rcases List.mem_cons.1 hp with rfl | hp'
            · simpa using by linarith
            · exact hall' p hp'
          · exact List.chain'_cons.2 ⟨by simp; linarith, hchain'⟩
          · simpa using by simpa using hlen'

/-- C5 (amended): provided the initial probe stays inside the bracket — that
is, the largest row sum is at least 1, as for any unweighted graph with an
edge — every bracket state of a Spectral Bound Finder run (as invoked by
`domirank`, with `max_depth = max_iter / 5`) satisfies `low ≤ high`, the
bracket width never increases between consecutive states, and the search runs
at most `max_iter / 5` iterations.  The original claim fails when the largest
row sum is below 1: the first probe `(low+high)/max_row_sum` then exceeds
`high`. -/
theorem bracket_invariant_amended (G : QMat) (dt epsilon : ℚ) (max_iter check_step : ℕ)
    (h : 1 ≤ maxRowSum G) :
    (∀ p ∈ findSmallestEigenvalueTrace G dt epsilon max_iter check_step (max_iter / 5),
      p.1 ≤ p.2)
    ∧ List.Chain' (fun a b : ℚ × ℚ => b.2 - b.1 ≤ a.2 - a.1)
        (findSmallestEigenvalueTrace G dt epsilon max_iter check_step (max_iter / 5))
    ∧ (findSmallestEigenvalueTrace G dt epsilon max_iter check_step (max_iter / 5)).length
        ≤ max_iter / 5 + 1 := by
  have hs : (0 : ℚ) < maxRowSum G := by linarith
  have h0 : (0 : ℚ) ≤ (0 + 1) / maxRowSum G := by positivity
  have h1' : ((0 : ℚ) + 1) / maxRowSum G ≤ 1 := by
    rw [div_le_one hs]
    linarith
  obtain ⟨t, ht, hall, hchain, hlen⟩ :=
    findEigStates_invariant G dt epsilon max_iter check_step (max_iter / 5) 0 1 _ h0 h1'
  unfold findSmallestEigenvalueTrace
  rw [ht]
  exact ⟨hall, hchain, hlen⟩

/-- C5 witness: the amended theorem at the unweighted two-node path, whose
largest row sum is exactly 1. -/
theorem bracket_invariant_amended_witness :
    (1 ≤ maxRowSum pathTwo) ∧
    (findSmallestEigenvalueTrace pathTwo (1/10) (1/100000) 10 5 (10 / 5)).length
      ≤ 10 / 5 + 1 :=
  ⟨by with_unfolding_all decide,
   (bracket_invariant_amended pathTwo (1/10) (1/100000) 10 5
     (by with_unfolding_all decide)).2.2⟩

/-! ### C9: shape of the returned mapping -/

theorem domirankLoop_psi_length (pG : QMat) (dt epsilon : ℚ) (c : ℕ) :
    ∀ fuel i Psi mv j P jf cv, Psi.length = pG.length →
      domirankLoop pG dt epsilon c fuel i Psi mv j = .ok (P, jf, cv) →
      P.length = pG.length := by
  intro fuel
  induction fuel with
  | zero =>
    intro i Psi mv j P jf cv hlen h
    simp only [domirankLoop, Except.ok.injEq, Prod.mk.injEq] at h
    obtain ⟨h1, -, -⟩ := h
    rw [← h1]
    exact hlen
  | succ n ih =>
    intro i Psi mv j P jf cv hlen h
    have hstep := step_length pG dt Psi hlen
    simp only [domirankLoop] at h
    split at h
    · split at h
      · simp only [Except.ok.injEq, Prod.mk.injEq] at h
        obtain ⟨h1, -, -⟩ := h
        rw [← h1]
        exact hstep
      · split at h
        · simp at h
        · split at h
          · simp only [Except.ok.injEq, Prod.mk.injEq] at h
            obtain ⟨h1, -, -⟩ := h
            rw [← h1]
            exact hstep
          · exact ih _ _ _ _ _ _ _ hstep h
    · exact ih _ _ _ _ _ _ _ hstep h

theorem domirankIterate_length (pG : QMat) (dt epsilon : ℚ) (mi c : ℕ) (P : QVec) (cv : Bool)
    (h : domirankIterate pG dt epsilon mi c = .ok (P, cv)) : P.length = pG.length := by
  simp only [domirankIterate, domirankIterateFull] at h
  split at h
  · simp [Except.map] at h
  · cases hloop : domirankLoop pG dt epsilon c mi 0
        (List.replicate pG.length ((1 : ℚ) / pG.length)) (List.replicate (mi / c) (0 : ℚ)) 0 with
    | error e => rw [hloop] at h; simp [Except.map] at h
    | ok r =>
      rw [hloop] at h
      obtain ⟨P', j', cv'⟩ := r
      simp only [Except.map, Except.ok.injEq, Prod.mk.injEq] at h
      obtain ⟨h1, -⟩ := h
      rw [← h1]
      exact domirankLoop_psi_length pG dt epsilon c _ _ _ _ _ _ _ _ (by simp) hloop

theorem length_spsolve (M : QMat) (b : QVec) : (spsolve M b).length = M.length := by
  simp [spsolve]

/-- C9 (confirmed): for every well-formed input graph (one adjacency row per
node), any call — iterative or analytical — that returns a result returns a
mapping whose keys are exactly the graph's nodes in their native iteration
order, one entry per node; when the node list is duplicate-free, so are the
keys. -/
theorem result_keys_are_nodes (G : GraphObj) (analytical : Bool) (sigma dt epsilon : ℚ)
    (max_iter check_step : ℕ) (ks : List ℕ) (len : ℕ)
    (hwf : G.adj.length = G.nodes.length)
    (h : ((domirank G analytical sigma dt epsilon max_iter check_step).2).map
        (fun r => (r.1.map Prod.fst, r.1.length)) = Except.ok (ks, len)) :
    ks = G.nodes ∧ len = G.nodes.length ∧ (G.nodes.Nodup → ks.Nodup) := by
  by_cases hty : G.ty = PyType.Graph ∨ G.ty = PyType.DiGraph
  case neg => simp [domirank, hty, Except.map] at h
  by_cases hlen : G.nodes.length = 0
  case pos => simp [domirank, hty, hlen, Except.map] at h
  cases analytical with
  | false =>
    by_cases hs0 : sigma < 0
    case pos => simp [domirank, hty, hlen, hs0, Except.map] at h
    by_cases hs1 : sigma > 1
    case pos => simp [domirank, hty, hlen, hs0, hs1, Except.map] at h
    cases hfind : find_smallest_eigenvalue G.adj 0 1 (max_iter / 5) dt epsilon
        max_iter check_step with
    | error e => simp [domirank, hty, hlen, hs0, hs1, hfind, Except.map] at h
    | ok lam =>
      cases hit : domirankIterate (smulMat (|sigma / lam|) G.adj) dt epsilon
          max_iter check_step with
      | error e => simp [domirank, hty, hlen, hs0, hs1, hfind, hit, Except.map] at h
      | ok pr =>
        obtain ⟨Psi, conv⟩ := pr
        have hPsi : Psi.length = G.nodes.length := by
          rw [domirankIterate_length _ _ _ _ _ _ _ hit, length_smulMat]
          exact hwf
        have hdom : (domirank G false sigma dt epsilon max_iter check_step).2
            = Except.ok (G.nodes.zip Psi, |sigma / lam|, conv) := by
          simp [domirank, hty, hlen, hs0, hs1, hfind, hit]
        rw [hdom] at h
        simp only [Except.map, Except.ok.injEq, Prod.mk.injEq] at h
        obtain ⟨h1, h2⟩ := h
        have hfst : (G.nodes.zip Psi).map Prod.fst = G.nodes :=
          List.map_fst_zip G.nodes Psi (le_of_eq hPsi.symm)
        have hlz : (G.nodes.zip Psi).length = G.nodes.length := by
          rw [List.length_zip, hPsi, min_self]
        refine ⟨by rw [← h1, hfst], by rw [← h2, hlz], ?_⟩
        intro hnd
        rw [← h1, hfst]
        exact hnd
  | true =>
    by_cases hs0 : sigma < 0
    case pos => simp [domirank, hty, hlen, hs0, Except.map] at h
    cases hfind : find_smallest_eigenvalue G.adj 0 1 (max_iter / 5) dt epsilon
        max_iter check_step with
    | error e => simp [domirank, hty, hlen, hs0, hfind, Except.map] at h
    | ok lam =>
      have hPsi : (spsolve (matAdd (smulMat (|sigma / lam|) G.adj)
          (identityMat G.adj.length))
          (smulVec (|sigma / lam|) (rowSums G.adj))).length = G.nodes.length := by
        rw [length_spsolve]
        simp only [matAdd, List.length_zipWith, length_smulMat, identityMat,
          List.length_map, List.length_range, min_self]
        exact hwf
      have hdom : (domirank G true sigma dt epsilon max_iter check_step).2
          = Except.ok (G.nodes.zip (spsolve (matAdd (smulMat (|sigma / lam|) G.adj)
              (identityMat G.adj.length)) (smulVec (|sigma / lam|) (rowSums G.adj))),
            |sigma / lam|, true) := by
        simp [domirank, hty, hlen, hs0, hfind]
      rw [hdom] at h
      simp only [Except.map, Except.ok.injEq, Prod.mk.injEq] at h
      obtain ⟨h1, h2⟩ := h
      have hfst : (G.nodes.zip (spsolve (matAdd (smulMat (|sigma / lam|) G.adj)
          (identityMat G.adj.length))
          (smulVec (|sigma / lam|) (rowSums G.adj)))).map Prod.fst = G.nodes :=
        List.map_fst_zip G.nodes _ (le_of_eq hPsi.symm)
      have hlz : (G.nodes.zip (spsolve (matAdd (smulMat (|sigma / lam|) G.adj)
          (identityMat G.adj.length))
          (smulVec (|sigma / lam|) (rowSums G.adj)))).length = G.nodes.length := by
        rw [List.length_zip, hPsi, min_self]
      refine ⟨by rw [← h1, hfst], by rw [← h2, hlz], ?_⟩
      intro hnd
      rw [← h1, hfst]
      exact hnd

/-! ### Symbolic execution of the loop at `sigma = 0` (for C2) -/

theorem listMax_replicate_of_pos (n : ℕ) (q : ℚ) (hn : 1 ≤ n) :
    listMax (List.replicate n q) = q := by
  obtain ⟨k, rfl⟩ := Nat.exists_eq_succ_of_ne_zero (by omega : n ≠ 0)
  exact listMax_replicate k q

theorem pyGet_natCast (l : QVec) (k : ℕ) : pyGet l (k : Int) = l.getD k 0 := by
  simp [pyGet]

theorem pyGet_neg_one (l : QVec) : pyGet l (-1) = l.getD (l.length - 1) 0 := by
  simp [pyGet]

/-- At `sigma = 0` the scaled matrix is the zero matrix, so the update is a
uniform decay: `tempVal = dt * (0 - p)` in every coordinate. -/
theorem sigma0_tempVal (A : QMat) (dt p : ℚ) :
    smulVec dt (vsub (matVec (smulMat 0 A) (onesMinus (List.replicate A.length p)))
      (List.replicate A.length p)) = List.replicate A.length (dt * (0 - p)) := by
  rw [matVec_zero_smul]
  simp only [vsub, zipWith_replicate_same, smulVec, List.map_replicate]

theorem sigma0_update (A : QMat) (dt p : ℚ) :
    vadd (List.replicate A.length p)
      (smulVec dt (vsub (matVec (smulMat 0 A) (onesMinus (List.replicate A.length p)))
        (List.replicate A.length p)))
      = List.replicate A.length (p + dt * (0 - p)) := by
  rw [sigma0_tempVal]
  simp only [vadd, zipWith_replicate_same]

theorem domirankLoop_step_nocheck (pG : QMat) (dt epsilon : ℚ) (c fuel i : ℕ)
    (Psi mv : QVec) (j : ℕ) (h : ¬ i % c = 0) :
    domirankLoop pG dt epsilon c (fuel + 1) i Psi mv j
      = domirankLoop pG dt epsilon c fuel (i + 1)
          (vadd Psi (smulVec dt (vsub (matVec pG (onesMinus Psi)) Psi))) mv j := by
  simp only [domirankLoop, if_neg h]

theorem domirankLoop_step_check (pG : QMat) (dt epsilon : ℚ) (c fuel i : ℕ)
    (Psi mv mv' : QVec) (j : ℕ)
    (hchk : i % c = 0)
    (hnb : ¬ absSum (smulVec dt (vsub (matVec pG (onesMinus Psi)) Psi))
        < epsilon * pG.length * dt)
    (hset : pySet mv j (listMax (smulVec dt (vsub (matVec pG (onesMinus Psi)) Psi)))
        = some mv')
    (hguard : ¬ (0 < j ∧ pyGet mv' j > pyGet mv' ((j : Int) - 1) ∧
        pyGet mv' ((j : Int) - 1) > pyGet mv' ((j : Int) - 2))) :
    domirankLoop pG dt epsilon c (fuel + 1) i Psi mv j
      = domirankLoop pG dt epsilon c fuel (i + 1)
          (vadd Psi (smulVec dt (vsub (matVec pG (onesMinus Psi)) Psi))) mv' (j + 1) := by
  simp only [domirankLoop, if_pos hchk, if_neg hnb, hset, if_neg hguard]

theorem domirankLoop_step_diverge (pG : QMat) (dt epsilon : ℚ) (c fuel i : ℕ)
    (Psi mv mv' : QVec) (j : ℕ)
    (hchk : i % c = 0)
    (hnb : ¬ absSum (smulVec dt (vsub (matVec pG (onesMinus Psi)) Psi))
        < epsilon * pG.length * dt)
    (hset : pySet mv j (listMax (smulVec dt (vsub (matVec pG (onesMinus Psi)) Psi)))
        = some mv')
    (hguard : 0 < j ∧ pyGet mv' j > pyGet mv' ((j : Int) - 1) ∧
        pyGet mv' ((j : Int) - 1) > pyGet mv' ((j : Int) - 2)) :
    domirankLoop pG dt epsilon c (fuel + 1) i Psi mv j
      = .ok (vadd Psi (smulVec dt (vsub (matVec pG (onesMinus Psi)) Psi)), j, false) := by
  simp only [domirankLoop, if_pos hchk, if_neg hnb, hset, if_pos hguard]

/-- Marching through `d` non-sampling steps at `sigma = 0` multiplies the
uniform state by `(1 - dt) ^ d`. -/
theorem domirankLoop_march (A : QMat) (dt epsilon : ℚ) (c : ℕ) :
    ∀ d fuel i p mv j, (∀ t, t < d → ¬ (i + t) % c = 0) →
      domirankLoop (smulMat 0 A) dt epsilon c (fuel + d) i
          (List.replicate A.length p) mv j
        = domirankLoop (smulMat 0 A) dt epsilon c fuel (i + d)
            (List.replicate A.length ((1 - dt) ^ d * p)) mv j := by
  intro d
  induction d with
  | zero =>
    intro fuel i p mv j _
    simp
  | succ k ih =>
    intro fuel i p mv j h
    have h0 : ¬ i % c = 0 := by simpa using h 0 (Nat.succ_pos k)
    have heq : fuel + (k + 1) = (fuel + k) + 1 := by omega
    rw [heq, domirankLoop_step_nocheck _ _ _ _ _ _ _ _ _ h0, sigma0_update]
    rw [ih fuel (i + 1) (p + dt * (0 - p)) mv j ?_]
    · have e1 : i + 1 + k = i + (k + 1) := by omega
      have e2 : (1 - dt) ^ k * (p + dt * (0 - p)) = (1 - dt) ^ (k + 1) * p := by ring
      rw [e1, e2]
    · intro t ht
      have h2 := h (t + 1) (by omega)
      rw [show i + (t + 1) = i + 1 + t from by omega] at h2
      exact h2

/-- One full sampling interval at `sigma = 0`: a sampling step (no
convergence, a successful buffer write, divergence guard false) followed by
`c - 1` plain steps. -/
theorem domirankLoop_check_advance (A : QMat) (dt epsilon : ℚ) (c : ℕ) (hc : 1 ≤ c)
    (fuel i : ℕ) (p : ℚ) (mv mv' : QVec) (j : ℕ)
    (hchk : i % c = 0)
    (hnb : ¬ absSum (List.replicate A.length (dt * (0 - p)))
        < epsilon * ((smulMat 0 A).length : ℚ) * dt)
    (hset : pySet mv j (listMax (List.replicate A.length (dt * (0 - p)))) = some mv')
    (hguard : ¬ (0 < j ∧ pyGet mv' j > pyGet mv' ((j : Int) - 1) ∧
        pyGet mv' ((j : Int) - 1) > pyGet mv' ((j : Int) - 2))) :
    domirankLoop (smulMat 0 A) dt epsilon c (fuel + c) i (List.replicate A.length p) mv j
      = domirankLoop (smulMat 0 A) dt epsilon c fuel (i + c)
          (List.replicate A.length ((1 - dt) ^ c * p)) mv' (j + 1) := by
  have heq : fuel + c = (fuel + (c - 1)) + 1 := by omega
  rw [heq, domirankLoop_step_check (smulMat 0 A) dt epsilon c (fuel + (c - 1)) i _ mv mv' j
    hchk (by rw [sigma0_tempVal]; exact hnb) (by rw [sigma0_tempVal]; exact hset) hguard]
  rw [sigma0_update]
  rw [domirankLoop_march A dt epsilon c (c - 1) fuel (i + 1) (p + dt * (0 - p)) mv' (j + 1) ?_]
  · have e1 : i + 1 + (c - 1) = i + c := by omega
    have e2 : (1 - dt) ^ (c - 1) * (p + dt * (0 - p)) = (1 - dt) ^ c * p := by
      have h3 : c - 1 + 1 = c := by omega
      calc (1 - dt) ^ (c - 1) * (p + dt * (0 - p))
          = (1 - dt) ^ (c - 1 + 1) * p := by rw [pow_succ]; ring
        _ = (1 - dt) ^ c * p := by rw [h3]
    rw [e1, e2]
  · intro t ht
    obtain ⟨a, rfl⟩ := Nat.dvd_of_mod_eq_zero hchk
    rw [show c * a + 1 + t = 1 + t + a * c from by ring, Nat.add_mul_mod_self_right,
      Nat.mod_eq_of_lt (by omega)]
    omega

/-- C2 (amended): at `sigma = 0` the state vector decays uniformly toward the
zero vector, but whenever the convergence threshold `epsilon * N * dt` has not
been met by the third sampling step (`epsilon * N ≤ (1 - dt) ^ (2 * patience)`)
the three recorded update maxima are negative and strictly increasing, the
divergence heuristic fires at the third sample, and the Iterator stops with
`converged = false`, returning the decayed state
`(1 - dt) ^ (2 * patience + 1) / N` in every coordinate. -/
theorem sigma_zero_flagged_diverged (A : QMat) (dt epsilon : ℚ) (max_iter check_step : ℕ)
    (hdt0 : 0 < dt) (hdt1 : dt < 1) (hc : 1 ≤ check_step)
    (hmi : 2 * check_step < max_iter) (hcap : 3 ≤ max_iter / check_step)
    (hn : 1 ≤ A.length)
    (heps : epsilon * A.length ≤ (1 - dt) ^ (2 * check_step)) :
    domirankIterateFull (smulMat 0 A) dt epsilon max_iter check_step
      = Except.ok (List.replicate A.length
          ((1 - dt) ^ (2 * check_step + 1) * ((1 : ℚ) / (A.length : ℚ))), 2, false)
    ∧ 0 < (1 - dt) ^ (2 * check_step + 1) * ((1 : ℚ) / (A.length : ℚ))
    ∧ (1 - dt) ^ (2 * check_step + 1) * ((1 : ℚ) / (A.length : ℚ))
        < (1 : ℚ) / (A.length : ℚ) := by
  have hN : (0 : ℚ) < (A.length : ℚ) := by exact_mod_cast hn
  have he0 : (0 : ℚ) < 1 - dt := by linarith
  have he1 : 1 - dt < 1 := by linarith
  refine ⟨?_, mul_pos (pow_pos he0 _) (by positivity), ?_⟩
  case refine_2 =>
    exact mul_lt_of_lt_one_left (by positivity) (pow_lt_one₀ (le_of_lt he0) he1 (by omega))
  have hc0 : ¬ check_step = 0 := by omega
  have hrun : domirankIterateFull (smulMat 0 A) dt epsilon max_iter check_step
      = domirankLoop (smulMat 0 A) dt epsilon check_step max_iter 0
          (List.replicate A.length ((1 : ℚ) / (A.length : ℚ)))
          (List.replicate (max_iter / check_step) (0 : ℚ)) 0 := by
    simp only [domirankIterateFull, if_neg hc0, length_smulMat]
  rw [hrun]
  -- the generic no-convergence fact at a uniform positive state
  have hnb_gen : ∀ V : ℚ, 0 < V → epsilon * (A.length : ℚ) ≤ (A.length : ℚ) * V →
      ¬ absSum (List.replicate A.length (dt * (0 - V)))
        < epsilon * ((smulMat 0 A).length : ℚ) * dt := by
    intro V hV hle
    rw [length_smulMat, absSum_replicate]
    have habs : |dt * (0 - V)| = dt * V := by
      rw [show dt * (0 - V) = -(dt * V) from by ring, abs_neg,
        abs_of_pos (mul_pos hdt0 hV)]
    rw [habs, show (A.length : ℚ) * (dt * V) = (A.length : ℚ) * V * dt from by ring]
    exact not_lt.mpr (mul_le_mul_of_nonneg_right hle (le_of_lt hdt0))
  -- facts about the uniform initial value
  have hv0pos : (0 : ℚ) < 1 / (A.length : ℚ) := by positivity
  have hNV0 : (A.length : ℚ) * ((1 : ℚ) / (A.length : ℚ)) = 1 := by field_simp
  generalize hV0d : (1 : ℚ) / (A.length : ℚ) = V0 at hv0pos hNV0 ⊢
  generalize hcapd : max_iter / check_step = cap at hcap ⊢
  have hP1pos : 0 < (1 - dt) ^ check_step * V0 := mul_pos (pow_pos he0 _) hv0pos
  have hP2pos : 0 < (1 - dt) ^ check_step * ((1 - dt) ^ check_step * V0) :=
    mul_pos (pow_pos he0 _) hP1pos
  have hpow2 : (1 - dt) ^ check_step * (1 - dt) ^ check_step = (1 - dt) ^ (2 * check_step) := by
    rw [← pow_add]
    congr 1
    omega
  have hb0 : epsilon * (A.length : ℚ) ≤ (A.length : ℚ) * V0 := by
    rw [hNV0]
    exact le_trans heps (pow_le_one₀ (le_of_lt he0) (le_of_lt he1))
  have hNP1 : (A.length : ℚ) * ((1 - dt) ^ check_step * V0) = (1 - dt) ^ check_step := by
    calc (A.length : ℚ) * ((1 - dt) ^ check_step * V0)
        = (1 - dt) ^ check_step * ((A.length : ℚ) * V0) := by ring
      _ = (1 - dt) ^ check_step := by rw [hNV0, mul_one]
  have hb1 : epsilon * (A.length : ℚ)
      ≤ (A.length : ℚ) * ((1 - dt) ^ check_step * V0) := by
    rw [hNP1]
    exact le_trans heps (pow_le_pow_of_le_one (le_of_lt he0) (le_of_lt he1) (by omega))
  have hNP2 : (A.length : ℚ) * ((1 - dt) ^ check_step * ((1 - dt) ^ check_step * V0))
      = (1 - dt) ^ (2 * check_step) := by
    calc (A.length : ℚ) * ((1 - dt) ^ check_step * ((1 - dt) ^ check_step * V0))
        = (1 - dt) ^ check_step * (1 - dt) ^ check_step * ((A.length : ℚ) * V0) := by ring
      _ = (1 - dt) ^ (2 * check_step) := by rw [hNV0, mul_one, hpow2]
  have hb2 : epsilon * (A.length : ℚ)
      ≤ (A.length : ℚ) * ((1 - dt) ^ check_step * ((1 - dt) ^ check_step * V0)) := by
    rw [hNP2]
    exact heps
  -- the strict ordering of the three recorded maxima
  have hP1lt : (1 - dt) ^ check_step * V0 < V0 :=
    mul_lt_of_lt_one_left hv0pos (pow_lt_one₀ (le_of_lt he0) he1 (by omega))
  have hP2lt : (1 - dt) ^ check_step * ((1 - dt) ^ check_step * V0)
      < (1 - dt) ^ check_step * V0 :=
    mul_lt_of_lt_one_left hP1pos (pow_lt_one₀ (le_of_lt he0) he1 (by omega))
  have hm01 : dt * (0 - V0) < dt * (0 - (1 - dt) ^ check_step * V0) := by
    nlinarith [mul_pos hdt0 (sub_pos.mpr hP1lt)]
  have hm12 : dt * (0 - (1 - dt) ^ check_step * V0)
      < dt * (0 - (1 - dt) ^ check_step * ((1 - dt) ^ check_step * V0)) := by
    nlinarith [mul_pos hdt0 (sub_pos.mpr hP2lt)]
  have hm0neg : dt * (0 - V0) < 0 := by nlinarith [mul_pos hdt0 hv0pos]
  -- buffer contents after each write
  have hlen0 : (List.replicate cap (0 : ℚ)).length = cap := by simp
  have hlen1 : ((List.replicate cap (0 : ℚ)).set 0 (dt * (0 - V0))).length = cap := by simp
  have hlen2 : (((List.replicate cap (0 : ℚ)).set 0 (dt * (0 - V0))).set 1
      (dt * (0 - (1 - dt) ^ check_step * V0))).length = cap := by simp
  -- first sampling step: i = 0, j = 0
  have hset0 : pySet (List.replicate cap (0 : ℚ)) 0
      (listMax (List.replicate A.length (dt * (0 - V0))))
      = some ((List.replicate cap (0 : ℚ)).set 0 (dt * (0 - V0))) := by
    rw [listMax_replicate_of_pos _ _ hn]
    exact pySet_lt _ _ _ (by rw [hlen0]; omega)
  rw [show max_iter = (max_iter - check_step) + check_step from by omega]
  rw [domirankLoop_check_advance A dt epsilon check_step hc (max_iter - check_step) 0 V0
    (List.replicate cap (0 : ℚ)) ((List.replicate cap (0 : ℚ)).set 0 (dt * (0 - V0))) 0
    (Nat.zero_mod _) (hnb_gen V0 hv0pos hb0) hset0 (by simp)]
  rw [Nat.zero_add, Nat.zero_add]
  -- second sampling step: i = check_step, j = 1
  have hset1 : pySet ((List.replicate cap (0 : ℚ)).set 0 (dt * (0 - V0))) 1
      (listMax (List.replicate A.length (dt * (0 - (1 - dt) ^ check_step * V0))))
      = some (((List.replicate cap (0 : ℚ)).set 0 (dt * (0 - V0))).set 1
          (dt * (0 - (1 - dt) ^ check_step * V0))) := by
    rw [listMax_replicate_of_pos _ _ hn]
    exact pySet_lt _ _ _ (by rw [hlen1]; omega)
  have hg1 : ¬ (0 < 1 ∧
      pyGet (((List.replicate cap (0 : ℚ)).set 0 (dt * (0 - V0))).set 1
        (dt * (0 - (1 - dt) ^ check_step * V0))) ((1 : ℕ) : Int)
        > pyGet (((List.replicate cap (0 : ℚ)).set 0 (dt * (0 - V0))).set 1
        (dt * (0 - (1 - dt) ^ check_step * V0))) (((1 : ℕ) : Int) - 1) ∧
      pyGet (((List.replicate cap (0 : ℚ)).set 0 (dt * (0 - V0))).set 1
        (dt * (0 - (1 - dt) ^ check_step * V0))) (((1 : ℕ) : Int) - 1)
        > pyGet (((List.replicate cap (0 : ℚ)).set 0 (dt * (0 - V0))).set 1
        (dt * (0 - (1 - dt) ^ check_step * V0))) (((1 : ℕ) : Int) - 2)) := by
    intro hcon
    obtain ⟨-, -, h3⟩ := hcon
    rw [show ((1 : ℕ) : Int) - 1 = ((0 : ℕ) : Int) from by decide,
      show ((1 : ℕ) : Int) - 2 = -1 from by decide, pyGet_natCast, pyGet_neg_one] at h3
    rw [getD_set_ne _ _ _ _ (by omega), getD_set_self _ _ _ (by rw [hlen0]; omega)] at h3
    rw [hlen2] at h3
    rw [getD_set_ne _ _ _ _ (by omega), getD_set_ne _ _ _ _ (by omega),
      getD_replicate _ _ _ (by omega)] at h3
    exact absurd h3 (by linarith)
  rw [show max_iter - check_step = (max_iter - 2 * check_step) + check_step from by omega]
  rw [domirankLoop_check_advance A dt epsilon check_step hc (max_iter - 2 * check_step)
    check_step ((1 - dt) ^ check_step * V0)
    ((List.replicate cap (0 : ℚ)).set 0 (dt * (0 - V0)))
    (((List.replicate cap (0 : ℚ)).set 0 (dt * (0 - V0))).set 1
      (dt * (0 - (1 - dt) ^ check_step * V0))) 1
    (Nat.mod_self _) (hnb_gen _ hP1pos hb1) hset1 hg1]
  rw [show (1 : ℕ) + 1 = 2 from rfl]
  -- third sampling step: i = 2 * check_step, j = 2 — the divergence fires
  have hchk2 : (check_step + check_step) % check_step = 0 := by
    rw [Nat.add_mod_left, Nat.mod_self]
  have hset2 : pySet (((List.replicate cap (0 : ℚ)).set 0 (dt * (0 - V0))).set 1
      (dt * (0 - (1 - dt) ^ check_step * V0))) 2
      (listMax (List.replicate A.length
        (dt * (0 - (1 - dt) ^ check_step * ((1 - dt) ^ check_step * V0)))))
      = some ((((List.replicate cap (0 : ℚ)).set 0 (dt * (0 - V0))).set 1
          (dt * (0 - (1 - dt) ^ check_step * V0))).set 2
          (dt * (0 - (1 - dt) ^ check_step * ((1 - dt) ^ check_step * V0)))) := by
    rw [listMax_replicate_of_pos _ _ hn]
    exact pySet_lt _ _ _ (by rw [hlen2]; omega)
  have hg2a : pyGet ((((List.replicate cap (0 : ℚ)).set 0 (dt * (0 - V0))).set 1
      (dt * (0 - (1 - dt) ^ check_step * V0))).set 2
      (dt * (0 - (1 - dt) ^ check_step * ((1 - dt) ^ check_step * V0)))) ((2 : ℕ) : Int)
      = dt * (0 - (1 - dt) ^ check_step * ((1 - dt) ^ check_step * V0)) := by
    rw [pyGet_natCast, getD_set_self _ _ _ (by rw [hlen2]; omega)]
  have hg2b : pyGet ((((List.replicate cap (0 : ℚ)).set 0 (dt * (0 - V0))).set 1
      (dt * (0 - (1 - dt) ^ check_step * V0))).set 2
      (dt * (0 - (1 - dt) ^ check_step * ((1 - dt) ^ check_step * V0)))) (((2 : ℕ) : Int) - 1)
      = dt * (0 - (1 - dt) ^ check_step * V0) := by
    rw [show ((2 : ℕ) : Int) - 1 = ((1 : ℕ) : Int) from by decide, pyGet_natCast,
      getD_set_ne _ _ _ _ (by omega), getD_set_self _ _ _ (by rw [hlen1]; omega)]
  have hg2c : pyGet ((((List.replicate cap (0 : ℚ)).set 0 (dt * (0 - V0))).set 1
      (dt * (0 - (1 - dt) ^ check_step * V0))).set 2
      (dt * (0 - (1 - dt) ^ check_step * ((1 - dt) ^ check_step * V0)))) (((2 : ℕ) : Int) - 2)
      = dt * (0 - V0) := by
    rw [show ((2 : ℕ) : Int) - 2 = ((0 : ℕ) : Int) from by decide, pyGet_natCast,
      getD_set_ne _ _ _ _ (by omega), getD_set_ne _ _ _ _ (by omega),
      getD_set_self _ _ _ (by rw [hlen0]; omega)]
  rw [show max_iter - 2 * check_step = (max_iter - 2 * check_step - 1) + 1 from by omega]
  rw [domirankLoop_step_diverge (smulMat 0 A) dt epsilon check_step
    (max_iter - 2 * check_step - 1) (check_step + check_step) _
    (((List.replicate cap (0 : ℚ)).set 0 (dt * (0 - V0))).set 1
      (dt * (0 - (1 - dt) ^ check_step * V0)))
    ((((List.replicate cap (0 : ℚ)).set 0 (dt * (0 - V0))).set 1
      (dt * (0 - (1 - dt) ^ check_step * V0))).set 2
      (dt * (0 - (1 - dt) ^ check_step * ((1 - dt) ^ check_step * V0)))) 2
    hchk2 (by rw [sigma0_tempVal]; exact hnb_gen _ hP2pos hb2)
    (by rw [sigma0_tempVal]; exact hset2)
    ⟨by omega, by rw [hg2a, hg2b]; exact hm12, by rw [hg2b, hg2c]; exact hm01⟩]
  rw [sigma0_update]
  have hfin : (1 - dt) ^ check_step * ((1 - dt) ^ check_step * V0)
      + dt * (0 - (1 - dt) ^ check_step * ((1 - dt) ^ check_step * V0))
      = (1 - dt) ^ (2 * check_step + 1) * V0 := by
    have hpow : (1 - dt) ^ (2 * check_step + 1)
        = (1 - dt) ^ check_step * (1 - dt) ^ check_step * (1 - dt) := by
      rw [show 2 * check_step + 1 = check_step + check_step + 1 from by omega,
        pow_succ, pow_add]
    rw [hpow]
    ring
  rw [hfin]

/-- C2 witness: the amended theorem at a single node with the default-like
parameters `dt = 1/10`, `epsilon = 1/100000`, `max_iter = 1000`,
`patience = 10`. -/
theorem sigma_zero_flagged_diverged_witness :
    ((1 : ℚ) / 100000 * (singleNode.length : ℚ) ≤ (1 - 1/10) ^ (2 * 10)) ∧
    domirankIterateFull (smulMat 0 singleNode) (1/10) (1/100000) 1000 10
      = Except.ok (List.replicate singleNode.length
          ((1 - 1/10) ^ (2 * 10 + 1) * ((1 : ℚ) / (singleNode.length : ℚ))), 2, false) :=
  ⟨by norm_num [singleNode],
   (sigma_zero_flagged_diverged singleNode (1/10) (1/100000) 1000 10
     (by norm_num) (by norm_num) (by norm_num) (by norm_num) (by norm_num)
     (by norm_num [singleNode]) (by norm_num [singleNode])).1⟩

/-- C9 witness: a concrete iterative run whose mapping keys are the node list
`[0, 1]` with one entry per node. -/
theorem result_keys_are_nodes_witness :
    (((domirank pathTwoGraph false (1/2) (1/10) (1/100000) 10 5).2).map
      (fun r => (r.1.map Prod.fst, r.1.length)) = Except.ok ([0, 1], 2)) ∧
    ([0, 1] = pathTwoGraph.nodes ∧ 2 = pathTwoGraph.nodes.length ∧
      (pathTwoGraph.nodes.Nodup → ([0, 1] : List ℕ).Nodup)) :=
  ⟨by with_unfolding_all rfl,
   result_keys_are_nodes pathTwoGraph false (1/2) (1/10) (1/100000) 10 5 [0, 1] 2
     (by decide) (by with_unfolding_all rfl)⟩

end DomiRank
